import Mathlib

/-!
Verification of the inventory/shipment dashboard (src/app.py) against its
natural-language specification.

The development shallowly embeds the data transformations of app.py:
pandas cell values become `Option ℚ` (with `none` playing the role of NaN),
data frames become lists of typed rows, and the pivot-table / merge / slice
operations become the corresponding pure list functions.  The stockout-risk
classification engine described in the specification does not occur in
src/app.py; it is modelled from the specification text and marked as such.
-/

/-- Pandas numeric value as produced by pd.to_numeric(..., errors="coerce"):
`none` models NaN, which is what both a missing cell and a cell that fails to
parse as a number are coerced to; `some q` models a parsed numeric value. -/
abbrev PValue : Type := Option ℚ

/-- Pandas Series.fillna: replace NaN by the given default.  The result is
always a non-NaN value. -/
def fillna (d : ℚ) (v : PValue) : PValue := some (v.getD d)

/-- NaN-propagating subtraction of pandas values (binary "-" on series). -/
def psub : PValue → PValue → PValue
  | some a, some b => some (a - b)
  | _, _ => none

/-- Aggregation of a group of pandas values by aggfunc="sum", which skips
NaN entries (an empty group aggregates to NaN, which fillna(0) then turns
into 0; both cases yield the plain sum below). -/
def sumSkipNaN (vs : List PValue) : ℚ := (vs.filterMap id).sum

/-- One row of the stock frame fed to the stock pivot (df3 after merging and
sidebar filtering): product key 商品ID, warehouse name 倉庫名, and the two raw
numeric cells 在庫数(引当数を含む) and 引当数, given by their numeric parse. -/
structure StockRow where
  productId : String
  warehouse : String
  zaiko : PValue
  hikiate : PValue

/-- Line 487 of app.py: the computed column
実在庫数 = to_numeric(在庫数).fillna(0) - to_numeric(引当数).fillna(0). -/
def «実在庫数» (zaiko hikiate : PValue) : PValue :=
  psub (fillna 0 zaiko) (fillna 0 hikiate)

/-- Replace both raw cells of a stock row by their zero-filled values. -/
def zeroFillRow (r : StockRow) : StockRow :=
  { r with zaiko := fillna 0 r.zaiko, hikiate := fillna 0 r.hikiate }

/-- Column axis of pivot_stock: the distinct warehouse names. -/
def stockCols (rows : List StockRow) : List String :=
  (rows.map StockRow.warehouse).dedup

/-- Row axis of pivot_stock: the distinct product keys. -/
def stockKeys (rows : List StockRow) : List String :=
  (rows.map StockRow.productId).dedup

/-- Cell of pivot_stock (line 490) after .fillna(0): sum of 実在庫数 over the
rows of the (product, warehouse) group; an absent group gives 0. -/
def pivotStockCell (rows : List StockRow) (k w : String) : ℚ :=
  sumSkipNaN
    ((rows.filter fun r => decide (r.productId = k ∧ r.warehouse = w)).map
      fun r => «実在庫数» r.zaiko r.hikiate)

/-- Per-product total pivot_stock.sum(axis=1): the sum of the pivot row over
all warehouse columns. -/
def stockTotalRow (rows : List StockRow) (k : String) : ℚ :=
  ((stockCols rows).map (pivotStockCell rows k)).sum

/-- Keys surviving line 491, pivot_stock_filtered =
pivot_stock[pivot_stock.sum(axis=1) != 0]. -/
def pivot_stock_filtered_keys (rows : List StockRow) : List String :=
  (stockKeys rows).filter fun k => decide (stockTotalRow rows k ≠ 0)

/-- One row of the shipment frame fed to the monthly or weekly pivot
(df_monthly_filtered resp. df_weekly_filtered): grouping key (商品ID together
with its classification columns, which the deduplicated master makes a
function of 商品ID), period code month_code resp. week_code (an integer code
whose numeric order is recency order), and quantity 合計出荷数.  The monthly
and the weekly paths of app.py are the same computation applied to different
period codes and window sizes, so they are modelled once. -/
structure ShipRow where
  productId : String
  period : ℤ
  qty : ℚ

/-- Column axis of the shipment pivot (line 318): the distinct period codes of
the input, sorted ascending, which is how pandas orders pivot columns. -/
def pivotCols (rows : List ShipRow) : List ℤ :=
  ((rows.map ShipRow.period).dedup).insertionSort (· ≤ ·)

/-- Row axis of the shipment pivot: the distinct grouping keys. -/
def pivotKeys (rows : List ShipRow) : List String :=
  (rows.map ShipRow.productId).dedup

/-- Cell of the shipment pivot after .fillna(0) (line 318): the sum of 合計出荷数
over the rows of the (key, period) group; a (key, period) pair with no rows
gives NaN in the raw pivot, which fillna(0) turns into 0, so both cases are
the plain sum over the (possibly empty) group. -/
def pivotCell (rows : List ShipRow) (k : String) (p : ℤ) : ℚ :=
  ((rows.filter fun r => decide (r.productId = k ∧ r.period = p)).map
    ShipRow.qty).sum

/-- Python slicing xs[-n:], as applied to the pivot column list: the last n
elements (all of them when fewer than n exist; the whole list when n = 0). -/
def takeLast (n : ℕ) (xs : List ℤ) : List ℤ :=
  if n = 0 then xs else xs.drop (xs.length - n)

/-- Line 319: recent_cols = pivot.columns[-num_months:], the window of the
num_months (resp. num_weeks) most recent period codes. -/
def recent_cols (rows : List ShipRow) (n : ℕ) : List ℤ :=
  takeLast n (pivotCols rows)

/-- Row of pivot_display (line 321) for a given key: the quantities over the
recent window in the order of the pivot columns.  This is also the per-product
series handed to the chart, i.e. the trend sequence of the specification. -/
def pivot_display_row (rows : List ShipRow) (k : String) (n : ℕ) : List ℚ :=
  (recent_cols rows n).map (pivotCell rows k)

/-- Per-key window total pivot[recent_cols].sum(axis=1) from line 320. -/
def windowSum (rows : List ShipRow) (k : String) (n : ℕ) : ℚ :=
  (pivot_display_row rows k n).sum

/-- Keys surviving line 320, pivot_filtered =
pivot[pivot[recent_cols].sum(axis=1) != 0]. -/
def pivot_filtered_keys (rows : List ShipRow) (n : ℕ) : List String :=
  (pivotKeys rows).filter fun k => decide (windowSum rows k n ≠ 0)

/-- One row of the PACK classification master restricted to the columns of
line 241 (master_cols_stock). -/
structure MasterRow where
  productId : String
  daibunrui : String
  chubunrui : String
  shobunrui : String
  productName : String

/-- Pandas drop_duplicates(subset=key) with the default keep="first": keep the
first row of each key. -/
def dropDuplicatesByKey {β : Type} (key : β → String) : List β → List β
  | [] => []
  | r :: rs =>
    r :: dropDuplicatesByKey key (rs.filter fun r2 => decide (key r2 ≠ key r))
termination_by l => l.length
decreasing_by
  simp only [List.length_cons]
  exact Nat.lt_succ_of_le (List.length_filter_le _ rs)

/-- Pandas pd.merge(left, right, on=key, how="left"): every left row is paired
with each matching right row, and a left row without a match is kept once with
a NaN right side (`none`).  In particular the key universe of the result is
exactly the key universe of the left frame. -/
def mergeLeft {α β : Type} (keyL : α → String) (keyR : β → String)
    (ls : List α) (rs : List β) : List (α × Option β) :=
  ls.flatMap fun l =>
    match rs.filter (fun r => decide (keyR r = keyL l)) with
    | [] => [(l, none)]
    | ms => ms.map fun r => (l, some r)

/-- Lines 244 to 248 of app.py: base_df_stock is the stock frame df3 merged
how="left" against the PACK master deduplicated on 商品ID, with the stock frame
as the left side of the merge. -/
def base_df_stock (df3 : List StockRow) (master : List MasterRow) :
    List (StockRow × Option MasterRow) :=
  mergeLeft StockRow.productId MasterRow.productId df3
    (dropDuplicatesByKey MasterRow.productId master)

/-- Streamlit st.slider(label, min_value, max_value, value): the widget yields
the default when untouched and otherwise the user selection, which the widget
itself constrains to the closed interval from min_value to max_value. -/
def sliderValue (lo hi dflt : ℤ) (sel : Option ℤ) : ℤ :=
  match sel with
  | none => dflt
  | some v => max lo (min hi v)

/-- Line 226: num_months = st.slider(min_value=3, max_value=26, value=12). -/
def num_months (sel : Option ℤ) : ℤ := sliderValue 3 26 12 sel

/-- Line 227: num_weeks = st.slider(min_value=3, max_value=15, value=12). -/
def num_weeks (sel : Option ℤ) : ℤ := sliderValue 3 15 12 sel

/-- Modelled from the spec: the closed set of risk categories of §4.2.  The
classification engine is absent from src/app.py; only the specification
describes it. -/
inductive Category : Type
  | NoActivity
  | Overstocked
  | Safe
  | NeedsReorder
  | WillArriveLate
  | AwaitingInbound
deriving DecidableEq

/-- The six categories, listed once each. -/
def allCategories : List Category :=
  [.NoActivity, .Overstocked, .Safe, .NeedsReorder, .WillArriveLate,
   .AwaitingInbound]

/-- Modelled from the spec: StockPosition (§3), reduced to the aggregate total
that classification reads. -/
structure StockPosition where
  total : ℚ

/-- Modelled from the spec: InboundPlan (§3): pending inbound quantity and the
expected arrival date in days, `none` when no arrival date exists. -/
structure InboundPlan where
  pendingQuantity : ℚ
  arrivalDate : Option ℤ

/-- Modelled from the spec: the evaluation period kind of §4.2. -/
inductive PeriodKind : Type
  | Monthly
  | Weekly

/-- Modelled from the spec: daysPerPeriod, 30 for Monthly and 7 for Weekly. -/
def daysPerPeriod : PeriodKind → ℚ
  | .Monthly => 30
  | .Weekly => 7

/-- Modelled from the spec: currentCoverage = stock.total / rate if rate > 0,
else the unbounded sentinel, represented as `none`. -/
def coverage (total rate : ℚ) : Option ℚ :=
  if 0 < rate then some (total / rate) else none

/-- A coverage value, possibly the unbounded sentinel, is at least a finite
threshold; the unbounded sentinel exceeds every threshold. -/
def covAtLeast (c : Option ℚ) (t : ℚ) : Bool :=
  match c with
  | none => true
  | some x => decide (t ≤ x)

/-- Modelled from the spec: daysUntilStockout = stock.total /
(rate / daysPerPeriod) if rate > 0, else a sentinel meaning never. -/
def daysUntilStockout (total rate : ℚ) (pk : PeriodKind) : Option ℚ :=
  if 0 < rate then some (total / (rate / daysPerPeriod pk)) else none

/-- Modelled from the spec: Classify (§4.2), the ordered decision list in
which the first matching rule wins.  Rule 1 NoActivity (rate and stock both
zero); rule 2 Overstocked (currentCoverage at least the overstock threshold);
rule 3 Safe (currentCoverage at least the safe threshold); rule 4 NeedsReorder
(nothing on order, where a null arrival date counts as nothing on order);
rules 5 and 6 compare the projected stockout runway in days against the days
until arrival: WillArriveLate when stockout strictly precedes arrival,
AwaitingInbound otherwise. -/
def Classify (stock : StockPosition) (inbound : InboundPlan) (rate : ℚ)
    (pk : PeriodKind) (now : ℤ) (safeThreshold overstockThreshold : ℚ) :
    Category :=
  if rate = 0 ∧ stock.total = 0 then .NoActivity
  else if covAtLeast (coverage stock.total rate) overstockThreshold then
    .Overstocked
  else if covAtLeast (coverage stock.total rate) safeThreshold then .Safe
  else
    match inbound.arrivalDate with
    | none => .NeedsReorder
    | some arr =>
      if inbound.pendingQuantity = 0 then .NeedsReorder
      else if covAtLeast (daysUntilStockout stock.total rate pk)
          ((arr - now : ℤ) : ℚ) then .AwaitingInbound
      else .WillArriveLate

/-- Modelled from the spec: ComputeAverageRate (§4.1), the arithmetic mean of
the windowSize most recent per-period quantities of a product, a missing
period counting as 0: the window total divided by the window size. -/
def ComputeAverageRate (rows : List ShipRow) (k : String) (n : ℕ) : ℚ :=
  (pivot_display_row rows k n).sum / n

/-- C10: every invocation reachable through the sidebar has
3 ≤ num_months ≤ 26 and 3 ≤ num_weeks ≤ 15, both defaulting to 12, so window
sizes 1 and 2 are unreachable. -/
theorem slider_window_bounds (sm sw : Option ℤ) :
    3 ≤ num_months sm ∧ num_months sm ≤ 26 ∧ num_months none = 12
    ∧ 3 ≤ num_weeks sw ∧ num_weeks sw ≤ 15 ∧ num_weeks none = 12 := by
  cases sm <;> cases sw <;> simp [num_months, num_weeks, sliderValue]

/-- C4: a stock cell that fails to parse as a number (coerced to NaN, here
`none`) is treated exactly as the number zero by the 実在庫数 computation, and
the computation is total: it always yields a value, never an error. -/
theorem coercion_failure_becomes_zero (z h : PValue) :
    «実在庫数» none h = «実在庫数» (some 0) h
    ∧ «実在庫数» z none = «実在庫数» z (some 0)
    ∧ («実在庫数» z h).isSome = true :=
  ⟨rfl, rfl, rfl⟩

/-- C2: for every input, Classify yields exactly one of the six categories:
the result occurs exactly once in the duplicate-free enumeration of the six,
so the categories are mutually exclusive and jointly exhaustive; Classify is
moreover a total function, so no input raises an error. -/
theorem classify_exactly_one_category (stock : StockPosition)
    (inbound : InboundPlan) (rate : ℚ) (pk : PeriodKind) (now : ℤ)
    (sT oT : ℚ) :
    allCategories.count (Classify stock inbound rate pk now sT oT) = 1 := by
  cases hc : Classify stock inbound rate pk now sT oT <;> decide

/-- C3: with rate = 0 classification never divides: coverage takes the
unbounded sentinel, the category is NoActivity exactly when the stock total is
zero, otherwise Safe or Overstocked, and never NeedsReorder, WillArriveLate or
AwaitingInbound. -/
theorem classify_zero_rate_routes (stock : StockPosition)
    (inbound : InboundPlan) (pk : PeriodKind) (now : ℤ) (sT oT : ℚ) :
    (stock.total = 0 → Classify stock inbound 0 pk now sT oT = .NoActivity)
    ∧ (stock.total ≠ 0 →
        (Classify stock inbound 0 pk now sT oT = .Safe ∨
          Classify stock inbound 0 pk now sT oT = .Overstocked))
    ∧ Classify stock inbound 0 pk now sT oT ≠ .NeedsReorder
    ∧ Classify stock inbound 0 pk now sT oT ≠ .WillArriveLate
    ∧ Classify stock inbound 0 pk now sT oT ≠ .AwaitingInbound := by
  by_cases hs : stock.total = 0 <;>
    simp [Classify, coverage, covAtLeast, hs]

/-- Witness for C3 at concrete inputs: zero rate with zero stock classifies as
NoActivity, zero rate with positive stock as Safe or Overstocked. -/
theorem classify_zero_rate_routes_witness :
    (StockPosition.mk 0).total = 0
    ∧ Classify ⟨0⟩ ⟨0, none⟩ 0 .Monthly 0 1 3 = .NoActivity
    ∧ (StockPosition.mk 5).total ≠ 0
    ∧ (Classify ⟨5⟩ ⟨0, none⟩ 0 .Monthly 0 1 3 = .Safe ∨
        Classify ⟨5⟩ ⟨0, none⟩ 0 .Monthly 0 1 3 = .Overstocked) :=
  ⟨rfl, (classify_zero_rate_routes ⟨0⟩ ⟨0, none⟩ .Monthly 0 1 3).1 rfl,
    by simp,
    (classify_zero_rate_routes ⟨5⟩ ⟨0, none⟩ .Monthly 0 1 3).2.1 (by simp)⟩

/-- C5 counterexample: a stock row whose 在庫数 parses to the negative number
-5 is not replaced by zero; the computed per-product stock total is -5, a
negative quantity propagated into the totals, contrary to the claim. -/
theorem negative_stock_propagates :
    stockTotalRow [⟨"A", "W", some (-5), some 0⟩] "A" = -5
    ∧ stockTotalRow [⟨"A", "W", some (-5), some 0⟩] "A" < 0 := by
  constructor <;>
    norm_num [stockTotalRow, stockCols, pivotStockCell, sumSkipNaN,
      «実在庫数», fillna, psub, List.dedup, List.filterMap_cons]

/-- C5 amended: missing stock values (NaN after coercion) are replaced by zero
before aggregation, and no NaN reaches the computed totals: zero-filling the
raw cells first changes nothing, and every pivot cell evaluates to the plain
rational sum of getD-zero differences.  Negative parsed values, however, are
propagated unchanged. -/
theorem missing_stock_zeroed_before_aggregation (rows : List StockRow)
    (k : String) :
    stockTotalRow (rows.map zeroFillRow) k = stockTotalRow rows k
    ∧ ∀ w, pivotStockCell rows k w =
        ((rows.filter fun r => decide (r.productId = k ∧ r.warehouse = w)).map
          fun r => r.zaiko.getD 0 - r.hikiate.getD 0).sum := by
  have hsum : ∀ {α : Type} (g : α → ℚ) (l : List α),
      (l.filterMap fun r => some (g r)).sum = (l.map g).sum := by
    intro α g l
    induction l with
    | nil => rfl
    | cons x xs ih => simp [List.filterMap_cons, ih]
  have hcellEval : ∀ rs w, pivotStockCell rs k w =
      ((rs.filter fun r => decide (r.productId = k ∧ r.warehouse = w)).map
        fun r => r.zaiko.getD 0 - r.hikiate.getD 0).sum := by
    intro rs w
    simp only [pivotStockCell, sumSkipNaN, «実在庫数», fillna, psub,
      List.filterMap_map, Function.comp]
    exact hsum _ _
  refine ⟨?_, fun w => hcellEval rows w⟩
  have hcomp : StockRow.warehouse ∘ zeroFillRow = StockRow.warehouse := rfl
  have hcols : stockCols (rows.map zeroFillRow) = stockCols rows := by
    rw [stockCols, stockCols, List.map_map, hcomp]
  have hcell : pivotStockCell (rows.map zeroFillRow) k =
      pivotStockCell rows k := by
    funext w
    rw [hcellEval, hcellEval]
    simp only [List.filter_map, List.map_map]
    rfl
  rw [stockTotalRow, stockTotalRow, hcols, hcell]

/-- Membership in the pivot column axis is membership among the input periods. -/
theorem mem_pivotCols {rows : List ShipRow} {p : ℤ} :
    p ∈ pivotCols rows ↔ p ∈ rows.map ShipRow.period := by
  unfold pivotCols
  rw [(List.perm_insertionSort _ _).mem_iff, List.mem_dedup]

/-- The pivot column axis is weakly sorted by period code. -/
theorem pivotCols_sorted_le (rows : List ShipRow) :
    List.Sorted (· ≤ ·) (pivotCols rows) :=
  List.sorted_insertionSort _ _

/-- The pivot column axis is duplicate free. -/
theorem pivotCols_nodup (rows : List ShipRow) : (pivotCols rows).Nodup :=
  (List.perm_insertionSort _ _).nodup_iff.mpr (List.nodup_dedup _)

/-- The pivot column axis is strictly sorted by period code. -/
theorem pivotCols_sorted_lt (rows : List ShipRow) :
    List.Sorted (· < ·) (pivotCols rows) :=
  (pivotCols_sorted_le rows).lt_of_le (pivotCols_nodup rows)

/-- C9: a product (grouping key) whose total over the recent window is zero is
dropped by pivot_filtered (line 320), and a product whose stock total across
warehouses is zero is dropped by pivot_stock_filtered (line 491), so neither
yields an output row or a CSV row. -/
theorem zero_total_rows_dropped (rows : List ShipRow) (n : ℕ) (k : String)
    (srows : List StockRow) (k2 : String) :
    (windowSum rows k n = 0 → k ∉ pivot_filtered_keys rows n)
    ∧ (stockTotalRow srows k2 = 0 → k2 ∉ pivot_stock_filtered_keys srows) := by
  constructor
  · intro h hk
    rcases List.mem_filter.mp hk with ⟨_, hp⟩
    simp [pivot_filtered_keys, h] at hp
  · intro h hk
    rcases List.mem_filter.mp hk with ⟨_, hp⟩
    simp [pivot_stock_filtered_keys, h] at hp

/-- Witness for C9 at concrete inputs: a product with only zero shipment
quantities in the window, and a product with zero stock total, are both
absent from the filtered outputs. -/
theorem zero_total_rows_dropped_witness :
    windowSum [⟨"A", 1, 0⟩] "A" 1 = 0
    ∧ "A" ∉ pivot_filtered_keys [⟨"A", 1, 0⟩] 1
    ∧ stockTotalRow [⟨"A", "W", some 0, some 0⟩] "A" = 0
    ∧ "A" ∉ pivot_stock_filtered_keys [⟨"A", "W", some 0, some 0⟩] := by
  have h1 : windowSum [⟨"A", 1, 0⟩] "A" 1 = 0 := by
    simp [windowSum, pivot_display_row, recent_cols, takeLast, pivotCols,
      pivotCell, List.insertionSort, List.orderedInsert]
  have h2 : stockTotalRow [⟨"A", "W", some 0, some 0⟩] "A" = 0 := by
    simp [stockTotalRow, stockCols, pivotStockCell, sumSkipNaN, «実在庫数»,
      fillna, psub, List.filterMap_cons]
  exact ⟨h1,
    (zero_total_rows_dropped [⟨"A", 1, 0⟩] 1 "A"
      [⟨"A", "W", some 0, some 0⟩] "A").1 h1,
    h2,
    (zero_total_rows_dropped [⟨"A", 1, 0⟩] 1 "A"
      [⟨"A", "W", some 0, some 0⟩] "A").2 h2⟩

/-- The left side of every merged row is one of the left input rows. -/
theorem fst_mem_of_mem_mergeLeft {α β : Type} (keyL : α → String)
    (keyR : β → String) (ls : List α) (rs : List β) :
    ∀ m ∈ mergeLeft keyL keyR ls rs, m.1 ∈ ls := by
  intro m hm
  rw [mergeLeft] at hm
  rcases List.mem_flatMap.mp hm with ⟨l, hl, hml⟩
  cases h : rs.filter (fun r => decide (keyR r = keyL l)) with
  | nil =>
    rw [h] at hml
    simp only [List.mem_singleton] at hml
    rw [hml]
    exact hl
  | cons r0 rs0 =>
    rw [h] at hml
    rcases List.mem_map.mp hml with ⟨r, _, hrm⟩
    rw [← hrm]
    exact hl

/-- C1: every row of base_df_stock (line 248) stems from a row of the stock
frame df3, the left side of the how="left" merge, so every product key in the
merged frame, and hence in any table derived from it, was present in the
stock input; products absent from the stock frame are excluded rather than
defaulted to zero stock. -/
theorem stock_products_from_stock_input (df3 : List StockRow)
    (master : List MasterRow) :
    (∀ m ∈ base_df_stock df3 master,
        m.1 ∈ df3 ∧ m.1.productId ∈ df3.map StockRow.productId)
    ∧ ∀ k ∈ stockKeys ((base_df_stock df3 master).map Prod.fst),
        k ∈ df3.map StockRow.productId := by
  have h1 : ∀ m ∈ base_df_stock df3 master, m.1 ∈ df3 :=
    fst_mem_of_mem_mergeLeft _ _ _ _
  refine ⟨fun m hm => ⟨h1 m hm, List.mem_map_of_mem _ (h1 m hm)⟩, ?_⟩
  intro k hk
  rw [stockKeys, List.mem_dedup, List.map_map] at hk
  rcases List.mem_map.mp hk with ⟨m, hm, rfl⟩
  exact List.mem_map_of_mem _ (h1 m hm)

/-- Witness for C1 at a concrete input: the single merged row of a singleton
stock frame against an empty master carries a product from the stock frame. -/
theorem stock_products_from_stock_input_witness :
    ((⟨"A", "W", some 1, some 0⟩, none) : StockRow × Option MasterRow) ∈
        base_df_stock [⟨"A", "W", some 1, some 0⟩] []
    ∧ (⟨"A", "W", some 1, some 0⟩ : StockRow) ∈
        ([⟨"A", "W", some 1, some 0⟩] : List StockRow)
    ∧ "A" ∈ ([⟨"A", "W", some 1, some 0⟩] : List StockRow).map
        StockRow.productId := by
  have hmem : ((⟨"A", "W", some 1, some 0⟩, none) : StockRow × Option MasterRow) ∈
      base_df_stock [⟨"A", "W", some 1, some 0⟩] [] := by
    simp [base_df_stock, mergeLeft, dropDuplicatesByKey]
  exact ⟨hmem,
    ((stock_products_from_stock_input [⟨"A", "W", some 1, some 0⟩] []).1 _
      hmem).1,
    ((stock_products_from_stock_input [⟨"A", "W", some 1, some 0⟩] []).1 _
      hmem).2⟩

/-- Appending a row whose period already occurs in the data leaves the pivot
column axis unchanged. -/
theorem pivotCols_append_existing (rows : List ShipRow) (r : ShipRow)
    (hp : r.period ∈ rows.map ShipRow.period) :
    pivotCols (rows ++ [r]) = pivotCols rows := by
  refine List.eq_of_perm_of_sorted ?_ (pivotCols_sorted_le _)
    (pivotCols_sorted_le _)
  refine (List.perm_ext_iff_of_nodup (pivotCols_nodup _)
    (pivotCols_nodup _)).mpr ?_
  intro a
  rw [mem_pivotCols, mem_pivotCols, List.map_append]
  constructor
  · intro h
    rcases List.mem_append.mp h with h | h
    · exact h
    · simp only [List.map_cons, List.map_nil, List.mem_singleton] at h
      rw [h]
      exact hp
  · intro h
    exact List.mem_append.mpr (Or.inl h)

/-- Appending an explicit zero-quantity row leaves every pivot cell
unchanged. -/
theorem pivotCell_append_zero (rows : List ShipRow) (k : String) (p : ℤ)
    (k2 : String) (q : ℤ) :
    pivotCell (rows ++ [⟨k, p, 0⟩]) k2 q = pivotCell rows k2 q := by
  rw [pivotCell, pivotCell, List.filter_append, List.map_append,
    List.sum_append]
  have hz : ((([⟨k, p, (0 : ℚ)⟩] : List ShipRow).filter
      fun r => decide (r.productId = k2 ∧ r.period = q)).map
        ShipRow.qty).sum = 0 := by
    by_cases hc1 : k = k2
    · by_cases hc2 : p = q <;> simp [List.filter_singleton, hc1, hc2]
    · simp [List.filter_singleton, hc1]
  rw [hz, add_zero]

/-- C6: a (product, period) pair missing from the shipment input is treated as
quantity 0, never as a gap and never as an error: the corresponding pivot cell
is 0 after fillna(0), and appending an explicit zero-quantity row for the pair
changes no pivot cell, no displayed trend row, and no moving average. -/
theorem missing_pair_treated_as_zero (rows : List ShipRow) (k : String)
    (p : ℤ) (hp : p ∈ rows.map ShipRow.period) :
    ((∀ r ∈ rows, ¬(r.productId = k ∧ r.period = p)) →
        pivotCell rows k p = 0)
    ∧ (∀ k2 q, pivotCell (rows ++ [⟨k, p, 0⟩]) k2 q = pivotCell rows k2 q)
    ∧ (∀ k2 n, pivot_display_row (rows ++ [⟨k, p, 0⟩]) k2 n =
        pivot_display_row rows k2 n)
    ∧ (∀ k2 n, ComputeAverageRate (rows ++ [⟨k, p, 0⟩]) k2 n =
        ComputeAverageRate rows k2 n) := by
  have hcell := pivotCell_append_zero rows k p
  have hcols := pivotCols_append_existing rows ⟨k, p, 0⟩ hp
  have hdisp : ∀ k2 n, pivot_display_row (rows ++ [⟨k, p, 0⟩]) k2 n =
      pivot_display_row rows k2 n := by
    intro k2 n
    rw [pivot_display_row, pivot_display_row, recent_cols, recent_cols, hcols]
    have hfun : pivotCell (rows ++ [⟨k, p, 0⟩]) k2 = pivotCell rows k2 :=
      funext (hcell k2)
    rw [hfun]
  refine ⟨?_, hcell, hdisp, ?_⟩
  · intro hnone
    rw [pivotCell]
    have hnil : rows.filter
        (fun r => decide (r.productId = k ∧ r.period = p)) = [] := by
      rw [List.filter_eq_nil_iff]
      intro r hr
      simpa using hnone r hr
    rw [hnil]
    rfl
  · intro k2 n
    rw [ComputeAverageRate, ComputeAverageRate, hdisp]

/-- Witness for C6 at a concrete input: product A has no row for period 1
(only product B does), and its pivot cell there is 0. -/
theorem missing_pair_treated_as_zero_witness :
    ((1 : ℤ) ∈ ([⟨"B", 1, 2⟩] : List ShipRow).map ShipRow.period)
    ∧ (∀ r ∈ ([⟨"B", 1, 2⟩] : List ShipRow),
        ¬(r.productId = "A" ∧ r.period = 1))
    ∧ pivotCell [⟨"B", 1, 2⟩] "A" 1 = 0 := by
  have hp : (1 : ℤ) ∈ ([⟨"B", 1, 2⟩] : List ShipRow).map ShipRow.period := by
    simp
  have hm : ∀ r ∈ ([⟨"B", 1, 2⟩] : List ShipRow),
      ¬(r.productId = "A" ∧ r.period = 1) := by
    simp
  exact ⟨hp, hm, (missing_pair_treated_as_zero [⟨"B", 1, 2⟩] "A" 1 hp).1 hm⟩

/-- In a weakly sorted integer list every member is at most the last entry. -/
theorem le_getLast_of_sorted : ∀ (l : List ℤ), List.Sorted (· ≤ ·) l →
    ∀ a ∈ l, ∀ b, l.getLast? = some b → a ≤ b := by
  intro l
  induction l with
  | nil => intro _ a ha; simp at ha
  | cons x xs ih =>
    intro h a ha b hb
    cases xs with
    | nil =>
      simp at ha hb
      omega
    | cons y ys =>
      rw [List.getLast?_cons_cons] at hb
      rcases List.mem_cons.mp ha with rfl | hmem
      · have hy : a ≤ y := (List.sorted_cons.mp h).1 y (by simp)
        have hyb : y ≤ b := ih (List.sorted_cons.mp h).2 y (by simp) b hb
        omega
      · exact ih (List.sorted_cons.mp h).2 a hmem b hb

/-- In a weakly sorted integer list the head is at most every member. -/
theorem head_le_of_sorted : ∀ (l : List ℤ), List.Sorted (· ≤ ·) l →
    ∀ a, l.head? = some a → ∀ b ∈ l, a ≤ b := by
  intro l
  induction l with
  | nil => intro _ a ha; simp at ha
  | cons x xs _ =>
    intro h a ha b hb
    simp at ha
    subst ha
    rcases List.mem_cons.mp hb with rfl | hmem
    · omega
    · exact (List.sorted_cons.mp h).1 b hmem

/-- C7: for a nonempty input and a positive window, the displayed trend row is
in strictly increasing (chronological, oldest to newest) period order; its
last element is the quantity of the most recent period (the maximum of all
period codes), its first element is the quantity of the oldest period of the
selected window (the minimum of the window), and every period excluded from
the window is older than every period inside it. -/
theorem trend_chronological (rows : List ShipRow) (k : String) (n : ℕ)
    (hn : 0 < n) (hne : rows ≠ []) :
    List.Sorted (· < ·) (recent_cols rows n)
    ∧ (∃ pmax, (pivotCols rows).getLast? = some pmax
        ∧ (∀ p ∈ rows.map ShipRow.period, p ≤ pmax)
        ∧ (pivot_display_row rows k n).getLast? =
            some (pivotCell rows k pmax))
    ∧ (∃ pmin, (recent_cols rows n).head? = some pmin
        ∧ (∀ q ∈ recent_cols rows n, pmin ≤ q)
        ∧ (pivot_display_row rows k n).head? = some (pivotCell rows k pmin))
    ∧ (∀ p ∈ pivotCols rows, p ∉ recent_cols rows n →
        ∀ q ∈ recent_cols rows n, p < q) := by
  have hcols_ne : pivotCols rows ≠ [] := by
    intro h
    have hlen := (List.perm_insertionSort (· ≤ ·)
      ((rows.map ShipRow.period).dedup)).length_eq
    rw [pivotCols] at h
    rw [h] at hlen
    have hded : (rows.map ShipRow.period).dedup = [] :=
      List.length_eq_zero.mp hlen.symm
    rw [List.dedup_eq_nil, List.map_eq_nil_iff] at hded
    exact hne hded
  have hlen1 : 0 < (pivotCols rows).length := List.length_pos.mpr hcols_ne
  have hrc : recent_cols rows n =
      (pivotCols rows).drop ((pivotCols rows).length - n) := by
    rw [recent_cols, takeLast, if_neg (Nat.pos_iff_ne_zero.mp hn)]
  have hrc_len : (recent_cols rows n).length =
      (pivotCols rows).length - ((pivotCols rows).length - n) := by
    rw [hrc, List.length_drop]
  have hrc_ne : recent_cols rows n ≠ [] := by
    intro h
    rw [h] at hrc_len
    simp at hrc_len
    omega
  have hsub : List.Sublist (recent_cols rows n) (pivotCols rows) := by
    rw [hrc]
    exact List.drop_sublist _ _
  have hsort_lt : List.Sorted (· < ·) (recent_cols rows n) :=
    List.Pairwise.sublist hsub (pivotCols_sorted_lt rows)
  have hsort_le : List.Sorted (· ≤ ·) (recent_cols rows n) :=
    List.Pairwise.sublist hsub (pivotCols_sorted_le rows)
  obtain ⟨pmax, hpmax⟩ : ∃ x, (pivotCols rows).getLast? = some x :=
    Option.isSome_iff_exists.mp (List.getLast?_isSome.mpr hcols_ne)
  obtain ⟨pmin, hpmin⟩ : ∃ x, (recent_cols rows n).head? = some x :=
    Option.isSome_iff_exists.mp (List.head?_isSome.mpr hrc_ne)
  have hlast_rc : (recent_cols rows n).getLast? = (pivotCols rows).getLast? := by
    rw [hrc, List.getLast?_drop, if_neg]
    omega
  refine ⟨hsort_lt, ⟨pmax, hpmax, ?_, ?_⟩, ⟨pmin, hpmin, ?_, ?_⟩, ?_⟩
  · intro p hp
    exact le_getLast_of_sorted (pivotCols rows) (pivotCols_sorted_le rows) p
      (mem_pivotCols.mpr hp) pmax hpmax
  · rw [pivot_display_row, List.getLast?_map, hlast_rc, hpmax]
    rfl
  · exact head_le_of_sorted (recent_cols rows n) hsort_le pmin hpmin
  · rw [pivot_display_row, List.head?_map, hpmin]
    rfl
  · intro p hp hnp q hq
    have hsplit := List.take_append_drop
      ((pivotCols rows).length - n) (pivotCols rows)
    have hps : List.Pairwise (· < ·)
        ((pivotCols rows).take ((pivotCols rows).length - n) ++
          (pivotCols rows).drop ((pivotCols rows).length - n)) := by
      rw [hsplit]
      exact pivotCols_sorted_lt rows
    have hp2 : p ∈ (pivotCols rows).take ((pivotCols rows).length - n) := by
      have hp3 : p ∈ (pivotCols rows).take ((pivotCols rows).length - n) ++
          (pivotCols rows).drop ((pivotCols rows).length - n) := by
        rw [hsplit]
        exact hp
      rcases List.mem_append.mp hp3 with h | h
      · exact h
      · rw [← hrc] at h
        exact absurd h hnp
    rw [hrc] at hq
    exact (List.pairwise_append.mp hps).2.2 p hp2 q hq

/-- Witness for C7 at a concrete input: a singleton series with window 1. -/
theorem trend_chronological_witness :
    0 < 1 ∧ ([⟨"A", 1, 5⟩] : List ShipRow) ≠ []
    ∧ List.Sorted (· < ·) (recent_cols [⟨"A", 1, 5⟩] 1) :=
  ⟨by decide, by simp,
    (trend_chronological [⟨"A", 1, 5⟩] "A" 1 (by decide) (by simp)).1⟩

/-- C8 counterexample: with a single available period and window size 4 the
displayed trend row has length 1, not the claimed window size 4, and is not
zero padded. -/
theorem trend_not_zero_padded :
    (pivot_display_row [⟨"A", 1, 5⟩] "A" 4).length = 1
    ∧ (pivot_display_row [⟨"A", 1, 5⟩] "A" 4).length ≠ 4 := by
  constructor <;>
    simp [pivot_display_row, recent_cols, takeLast, pivotCols,
      List.insertionSort, List.orderedInsert]

/-- C8 amended: for a positive window size the displayed trend row has length
min(windowSize, number of distinct periods in the input): the slice
pivot.columns[-n:] never pads, so a product universe with fewer periods than
the window yields a shorter row, and zero padding never occurs. -/
theorem trend_length_min (rows : List ShipRow) (k : String) (n : ℕ)
    (hn : 0 < n) :
    (pivot_display_row rows k n).length = min n (pivotCols rows).length := by
  rw [pivot_display_row, List.length_map, recent_cols, takeLast,
    if_neg (Nat.pos_iff_ne_zero.mp hn), List.length_drop]
  omega

/-- Witness for C8 amended at the counterexample input. -/
theorem trend_length_min_witness :
    0 < 4 ∧ (pivot_display_row [⟨"A", 1, 5⟩] "A" 4).length =
      min 4 (pivotCols [⟨"A", 1, 5⟩]).length :=
  ⟨by decide, trend_length_min [⟨"A", 1, 5⟩] "A" 4 (by decide)⟩
